import Mathlib

/-!
Verification of the funfull-roller-middleware specification against a shallow
embedding of the two Python source files (src/app.py and
src/funfull_roller_middleware_fast_api.py).

Conventions of the embedding:
- instants and durations are integers (seconds); machine time is passed
  explicitly as a parameter wherever the code reads the clock;
- network calls are passed as explicit oracle functions: a value of type
  Style to Except String Resp maps each negotiation style to either a
  network-error message (a raised requests.RequestException) or a response;
- Python dict field access is modelled with Option fields, and Python
  truthiness of a string or list is the non-emptiness test;
- FastAPI HTTPException and an uncaught requests exception are the two
  constructors of PyError; fallible handlers return Except PyError.
-/

/-- The three OAuth2 client-credentials wire conventions of app.py
(ROLLER_TOKEN_STYLE env var): basic auth header, form body, json body. -/
inductive Style
  | basic
  | body
  | json
deriving DecidableEq

/-- JSON body of a token-endpoint response: the two fields the code reads,
each possibly absent. Models data.get("access_token"), data.get("expires_in"). -/
structure TokenBody where
  access_token : Option String
  expires_in : Option Int
deriving DecidableEq

/-- An HTTP response from the token endpoint: status code, parsed JSON body
and raw text (r.text, used in diagnostics). -/
structure Resp where
  status : Int
  body : TokenBody
  text : String
deriving DecidableEq

/-- An error escaping a handler: either a FastAPI HTTPException with a status
and detail, or an uncaught requests.RequestException (network failure that no
try/except catches on its path). -/
inductive PyError
  | httpError (status : Int) (detail : String)
  | requestError (msg : String)
deriving DecidableEq

/-- The OAuth configuration read from the environment in app.py:
ROLLER_AUTH_TYPE, ROLLER_TOKEN_URL, ROLLER_CLIENT_ID, ROLLER_CLIENT_SECRET. -/
structure OAuthConfig where
  authType : String
  tokenUrl : String
  clientId : String
  clientSec : String
deriving DecidableEq

/-- The process-wide token cache of app.py line 65:
a dict holding token (None or the string from access_token) and exp. -/
structure TokenCache where
  token : Option String
  exp : Int
deriving DecidableEq

/-- Python truthiness of the cached token slot: None and the empty string are
falsy. -/
def truthy : Option String → Bool
  | none => false
  | some s => s ≠ ""

/-- ROLLER_TOKEN_STYLE parsing in app.py line 176 and the branch structure of
lines 183, 200, 214: the string json selects json, body selects body, and
anything else falls into the final else branch (basic). -/
def parseStyle (s : String) : Style :=
  if s = "json" then .json else if s = "body" then .body else .basic

/-- The order in which the code of app.py lines 183-227 attempts the wire
conventions, per preferred style. The json branch falls back to body then
basic; the body branch falls back only to json; the basic branch falls back
only to json. -/
def attemptOrder : Style → List Style
  | .json => [.json, .body, .basic]
  | .body => [.body, .json]
  | .basic => [.basic, .json]

/-- The sequential try/fail chain of app.py: post with the first style; a
raised network exception propagates immediately (there is no try/except in
_bearer); on a response, stop at status 200, otherwise post with the next
style; the response of the last attempted style is kept even when not 200. -/
def tryStyles (send : Style → Except String Resp) : List Style → Except String Resp
  | [] => .ok { status := 0, body := { access_token := none, expires_in := none }, text := "" }
  | s :: rest =>
    match send s with
    | .error e => .error e
    | .ok r => if rest = [] then .ok r else if r.status = 200 then .ok r else tryStyles send rest

/-- Shallow embedding of _bearer in src/app.py lines 167-235. The clock value
now and the network oracle send are explicit parameters; the token cache is
threaded as state. Returns the bearer token (None in key mode) together with
the updated cache, or the escaping error. -/
def bearer (cfg : OAuthConfig) (now : Int) (styleEnv : String)
    (send : Style → Except String Resp) (cache : TokenCache) :
    Except PyError (Option String × TokenCache) :=
  if cfg.authType = "key" then .ok (none, cache)
  else if truthy cache.token ∧ cache.exp - 60 > now then .ok (cache.token, cache)
  else if cfg.tokenUrl = "" ∨ cfg.clientId = "" ∨ cfg.clientSec = "" then
    .error (.httpError 500 "OAuth configured but TOKEN_URL/CLIENT_ID/CLIENT_SECRET missing")
  else
    match tryStyles send (attemptOrder (parseStyle styleEnv)) with
    | .error e => .error (.requestError e)
    | .ok r =>
      if r.status ≠ 200 then .error (.httpError 502 ("Auth failed: " ++ r.text))
      else
        let tok := r.body.access_token
        .ok (tok, { token := tok, exp := now + r.body.expires_in.getD 3600 })

/-- Shallow embedding of _bearer in src/funfull_roller_middleware_fast_api.py
lines 59-84: a single body-style post wrapped in try/except, so a network
failure becomes HTTPException 502 with an Auth network error detail. -/
def bearer_fastapi (cfg : OAuthConfig) (now : Int)
    (send_body : Except String Resp) (cache : TokenCache) :
    Except PyError (Option String × TokenCache) :=
  if cfg.authType = "key" then .ok (none, cache)
  else if truthy cache.token ∧ cache.exp - 60 > now then .ok (cache.token, cache)
  else if cfg.tokenUrl = "" ∨ cfg.clientId = "" ∨ cfg.clientSec = "" then
    .error (.httpError 500 "OAuth configured but TOKEN_URL/CLIENT_ID/CLIENT_SECRET missing")
  else
    match send_body with
    | .error e => .error (.httpError 502 ("Auth network error: " ++ e))
    | .ok r =>
      if r.status ≠ 200 then .error (.httpError 502 ("Auth failed: " ++ r.text))
      else
        let tok := r.body.access_token
        .ok (tok, { token := tok, exp := now + r.body.expires_in.getD 3600 })

/-- A normalized catalog entry, the dict built in _fetch_catalog_from_roller
(src/app.py lines 95-100). -/
structure CatalogItem where
  productId : String
  name : String
  durationMinutes : Int
  resourceTypes : List String
deriving DecidableEq, Inhabited

/-- A raw upstream product record, restricted to the fields the normalization
loop of src/app.py lines 84-94 reads. An absent key is none. -/
structure RawProduct where
  parentProductId : Option String
  id : Option String
  productId : Option String
  code : Option String
  parentProductName : Option String
  name : Option String
  title : Option String
  duration : Option Int
  durationMinutes : Option Int
  resourceTypes : Option (List String)
  resourceType : Option String
deriving DecidableEq

/-- An all-absent raw record, convenient base for concrete examples. -/
def emptyRaw : RawProduct :=
  { parentProductId := none, id := none, productId := none, code := none
    parentProductName := none, name := none, title := none
    duration := none, durationMinutes := none
    resourceTypes := none, resourceType := none }

/-- Python or-chain over string-valued dict lookups: the first truthy value,
where None and the empty string are falsy. A chain ending in a falsy value is
collapsed to none, which is equivalent for every use in the code because the
result is immediately tested for truthiness. -/
def firstTruthyStr : List (Option String) → Option String
  | [] => none
  | none :: rest => firstTruthyStr rest
  | some s :: rest => if s = "" then firstTruthyStr rest else some s

/-- Python or-chain over int-valued dict lookups with a final literal default:
the first truthy (nonzero) value, else the default. Models
p.get("duration") or p.get("durationMinutes") or 120. -/
def firstTruthyInt (dflt : Int) : List (Option Int) → Int
  | [] => dflt
  | none :: rest => firstTruthyInt dflt rest
  | some n :: rest => if n = 0 then firstTruthyInt dflt rest else n

/-- Resource-type extraction of src/app.py lines 88-90:
p.get("resourceTypes") or p.get("resourceType") or [], with a lone string
wrapped into a singleton list. -/
def rawResourceTypes (p : RawProduct) : List String :=
  match p.resourceTypes with
  | some l =>
    if l = [] then
      match p.resourceType with
      | some s => if s = "" then [] else [s]
      | none => []
    else l
  | none =>
    match p.resourceType with
    | some s => if s = "" then [] else [s]
    | none => []

/-- Lower-cased character list of a string, modelling str.lower() for the
substring test of the catalog name filter. -/
def lowerChars (s : String) : List Char := s.data.map Char.toLower

/-- Normalization of one raw upstream record, the body of the loop in
src/app.py lines 84-100: resolve an id and a name through the alias chains,
drop the record (none) when either is falsy or when the configured
case-insensitive name filter does not occur in the name. -/
def normalizeRaw (nameFilterEnv : String) (p : RawProduct) : Option CatalogItem :=
  let pid := firstTruthyStr [p.parentProductId, p.id, p.productId, p.code]
  let nm := firstTruthyStr [p.parentProductName, p.name, p.title]
  let dur := firstTruthyInt 120 [p.duration, p.durationMinutes]
  match pid, nm with
  | some i, some n =>
    if lowerChars nameFilterEnv ≠ [] ∧ ¬ (lowerChars nameFilterEnv <:+: lowerChars n) then none
    else some { productId := i, name := n, durationMinutes := dur, resourceTypes := rawResourceTypes p }
  | _, _ => none

/-- The whole normalization loop of _fetch_catalog_from_roller: records that
fail to resolve an id or a name are skipped with continue, never an error. -/
def normalizeCatalog (nameFilterEnv : String) (rs : List RawProduct) : List CatalogItem :=
  rs.filterMap (normalizeRaw nameFilterEnv)

/-- The process-wide catalog cache of src/app.py line 74: fetch instant and
item list. The source dict key at is rendered as fetchedAt. -/
structure CatalogCache where
  fetchedAt : Int
  items : List CatalogItem
deriving DecidableEq

/-- Shallow embedding of _get_catalog (src/app.py lines 104-111). The already
normalized upstream result is the parameter fetched (the network fetch is
assumed to succeed; a failing fetch raises and stores nothing). Returns the
served items, the updated cache, and whether an upstream fetch happened. -/
def getCatalog (ttl : Int) (now : Int) (fetched : List CatalogItem) (c : CatalogCache) :
    List CatalogItem × CatalogCache × Bool :=
  if c.items ≠ [] ∧ now - c.fetchedAt < ttl then (c.items, c, false)
  else (fetched, { fetchedAt := now, items := fetched }, true)

/-- Python str.strip on a character list: drop whitespace from both ends. -/
def pyStrip (l : List Char) : List Char :=
  ((l.dropWhile Char.isWhitespace).reverse.dropWhile Char.isWhitespace).reverse

/-- The _norm helper of src/app.py lines 113-114: keep alphanumeric and
whitespace characters, lower-case them, and strip the ends. The result is a
character list so that every step is kernel-computable. -/
def norm (s : String) : List Char :=
  pyStrip ((s.data.filter (fun c => c.isAlphanum || c.isWhitespace)).map Char.toLower)

/-- Python round(x, 3) on the similarity score, over the rationals. -/
def round3 (q : ℚ) : ℚ := (round (q * 1000) : ℤ) / 1000

/-- The result shape of the resolve-package endpoint: the early hint branch
(empty query or empty catalog, raw items truncated to 10), the low-confidence
branch (id and name pairs of the first 10 items plus the confidence), and the
confident match. -/
inductive MatchResult
  | unmatchedHint (choices : List CatalogItem)
  | unmatched (choices : List (String × String)) (confidence : ℚ)
  | matched (confidence : ℚ) (productId : String) (name : String)
      (resourceTypes : List String) (durationMinutes : Int)
deriving DecidableEq

/-- Python max(candidates, key=first component) driven from an initial best:
scan left to right, replacing the best only on a strictly greater score, so
the first of several maximal candidates wins. -/
def pyMax (l : List (ℚ × CatalogItem)) (c : ℚ × CatalogItem) : ℚ × CatalogItem :=
  l.foldl (fun best x => if x.1 > best.1 then x else best) c

/-- Shallow embedding of resolve_package (src/app.py lines 126-152). The
similarity score function (difflib.SequenceMatcher ratio over the two
normalized strings) is an explicit parameter: the endpoint applies it to the
normalized query and each normalized candidate name. -/
def resolvePackage (score : List Char → List Char → ℚ) (q : String)
    (items : List CatalogItem) : MatchResult :=
  let text := norm q
  if text = [] ∨ items = [] then .unmatchedHint (items.take 10)
  else
    match items.map (fun it => (score text (norm it.name), it)) with
    | [] => .unmatchedHint []
    | c :: rest =>
      let sb := pyMax rest c
      if sb.1 < 62/100 then
        .unmatched ((items.take 10).map (fun it => (it.productId, it.name))) (round3 sb.1)
      else
        .matched (round3 sb.1) sb.2.productId sb.2.name sb.2.resourceTypes sb.2.durationMinutes

/-- Parse a run of decimal digits, the behaviour of Python int() on the
pieces of an HH:MM string: none models a raised ValueError. -/
def digitsToNat : List Char → Option Nat
  | [] => none
  | l => if l.all Char.isDigit then some (l.foldl (fun acc c => acc * 10 + (c.toNat - 48)) 0) else none

/-- The _to_minutes helper of src/app.py lines 162-165: split on the colon
into exactly two pieces and compute hours times 60 plus minutes. none models
the exception raised on a malformed string. -/
def toMinutes (s : String) : Option Int :=
  match s.data.splitOn ':' with
  | [h, m] => do
    let hn ← digitsToNat h
    let mn ← digitsToNat m
    pure ((hn : Int) * 60 + mn)
  | _ => none

/-- Total wrapper for _to_minutes used as a sort and distance key; every
start-time string the claims involve is well formed, where the two agree. -/
def toMinutesD (s : String) : Int := (toMinutes s).getD 0

/-- An upstream session record: the only field the handler reads is
startTime. -/
structure Session where
  startTime : String
deriving DecidableEq, Inhabited

/-- Comparison key order used by sessions.sort(key=_to_minutes) in
src/app.py line 381. -/
def sessionLe (a b : Session) : Prop := toMinutesD a.startTime ≤ toMinutesD b.startTime

instance : DecidableRel sessionLe := fun _ _ => Int.decLe _ _

instance : IsTotal Session sessionLe := ⟨fun _ _ => Int.le_total _ _⟩

instance : IsTrans Session sessionLe := ⟨fun _ _ _ h h' => le_trans h h'⟩

/-- Python list.sort is a stable ascending sort by the key; insertion sort by
the same key realizes exactly that order. -/
def sortSessions (ss : List Session) : List Session :=
  List.insertionSort sessionLe ss

/-- The first argmin scan of src/app.py line 385:
min(range(len(starts)), key=lambda i: abs(starts[i] - pt)) — Python min keeps
the earliest index among ties because it replaces only on strict decrease. -/
def nearestIdx (starts : List Int) (pt : Int) : Nat :=
  (List.range starts.length).foldl
    (fun best i => if |starts.getD i 0 - pt| < |starts.getD best 0 - pt| then i else best) 0

/-- The neighbor window of src/app.py lines 388-393: the session at the
nearest index, preceded and followed by its immediate neighbors when they
exist. -/
def neighborWindow (sorted : List Session) (idx : Nat) : List Session :=
  (if 1 ≤ idx then [sorted.getD (idx - 1) default] else [])
    ++ [sorted.getD idx default]
    ++ (if idx + 1 < sorted.length then [sorted.getD (idx + 1) default] else [])

/-- End-to-end neighbor selection for one nonempty session list: sort by
start time, locate the start nearest to the preferred time, take the window. -/
def neighborsFor (ss : List Session) (pt : Int) : List Session :=
  let sorted := sortSessions ss
  neighborWindow sorted (nearestIdx (sorted.map (fun s => toMinutesD s.startTime)) pt)

/-- One availability product as the handler sees it: the upstream sessions
plus the two convenience keys the handler may attach to the dict. A pristine
upstream product carries none in both. -/
structure AvailProduct where
  sessions : List Session
  preferred : Option String
  neighborSessions : Option (List Session)
deriving DecidableEq

/-- The per-product block of src/app.py lines 376-397: products with an empty
session list are skipped; otherwise the session list is sorted in place and
the preferred and neighborSessions keys are attached to the same dict. -/
def processProduct (pt : String) (prod : AvailProduct) : AvailProduct :=
  if prod.sessions = [] then prod
  else
    let sorted := sortSessions prod.sessions
    { sessions := sorted
      preferred := some pt
      neighborSessions :=
        some (neighborWindow sorted
          (nearestIdx (sorted.map (fun s => toMinutesD s.startTime)) (toMinutesD pt))) }

/-- The loop over all products of the upstream response. -/
def processPreferred (pt : String) (prods : List AvailProduct) : List AvailProduct :=
  prods.map (processProduct pt)

/-- Memoization key of the lru_cache on _availability_cached: date, product
category, product ids, TTL bucket. -/
abbrev AvailKey := String × Option String × Option String × Int

/-- The association-list view of the lru_cache memo table. -/
def lookupMemo (memo : List (AvailKey × List AvailProduct)) (k : AvailKey) :
    Option (List AvailProduct) :=
  match memo.find? (fun e => e.1 = k) with
  | some e => some e.2
  | none => none

/-- One call through the lru_cache wrapper of _availability_cached
(src/app.py lines 337-352): on a hit the memoized object itself is returned;
on a miss the upstream response is fetched, stored and returned. -/
def availabilityCached (upstream : List AvailProduct)
    (memo : List (AvailKey × List AvailProduct)) (k : AvailKey) :
    List AvailProduct × List (AvailKey × List AvailProduct) :=
  match lookupMemo memo k with
  | some v => (v, memo)
  | none => (upstream, (k, upstream) :: memo)

/-- In-place mutation of the object stored under a key: because the handler
mutates the very list object the memo returned, the memo afterwards holds the
mutated value. -/
def memoMutate (memo : List (AvailKey × List AvailProduct)) (k : AvailKey)
    (v : List AvailProduct) : List (AvailKey × List AvailProduct) :=
  memo.map (fun e => if e.1 = k then (k, v) else e)

/-- Python Date or date for the two query parameters of product_availability
(src/app.py line 366). -/
def pyOr (a b : Option String) : Option String :=
  match a with
  | some s => if s = "" then b else some s
  | none => b

/-- The date guard of src/app.py lines 367-368:
not Date or len(Date) != 10 or Date[4] != "-" or Date[7] != "-" rejects; this
function is the acceptance test. -/
def dateParamOk (d : Option String) : Bool :=
  match d with
  | none => false
  | some s => s ≠ "" && s.length = 10 && s.data.getD 4 ' ' = '-' && s.data.getD 7 ' ' = '-'

/-- Modelled from the spec words of claim C9 only (for comparison with the
code guard dateParamOk): a string strictly in YYYY-MM-DD format, digits in
all eight digit positions and dashes at positions 4 and 7. -/
def strictYYYYMMDD (d : String) : Bool :=
  d.length = 10
    && (d.data.take 4).all Char.isDigit
    && d.data.getD 4 ' ' = '-'
    && ((d.data.drop 5).take 2).all Char.isDigit
    && d.data.getD 7 ' ' = '-'
    && ((d.data.drop 8).take 2).all Char.isDigit

/-- Response of the product-availability handler: a 422 validation rejection
or the (possibly post-processed) product list. -/
inductive AvailResponse
  | validationError (status : Int) (msg : String)
  | ok (data : List AvailProduct)
deriving DecidableEq

/-- Shallow embedding of product_availability (src/app.py lines 354-399)
around the memoized fetch: validate the date, fetch through the memo, and
when a preferred time is given post-process the fetched objects in place.
Returns the response, the memo after the request, and whether an upstream
fetch happened during the request. -/
def productAvailability (upstream : List AvailProduct)
    (memo : List (AvailKey × List AvailProduct))
    (DateQ dateQ productCategory productIds preferredTime : Option String)
    (bucket : Int) :
    AvailResponse × List (AvailKey × List AvailProduct) × Bool :=
  let dd := pyOr DateQ dateQ
  if dateParamOk dd = false then (.validationError 422 "Date must be yyyy-MM-dd", memo, false)
  else
    let k : AvailKey := (dd.getD "", productCategory, productIds, bucket)
    let fetchedFlag := (lookupMemo memo k).isNone
    let dm := availabilityCached upstream memo k
    match preferredTime with
    | none => (.ok dm.1, dm.2, fetchedFlag)
    | some pt =>
      let processed := processPreferred pt dm.1
      (.ok processed, memoMutate dm.2 k processed, fetchedFlag)

/-! Helper lemmas about the negotiation chain. -/

lemma attemptOrder_ne_nil (p : Style) : attemptOrder p ≠ [] := by
  cases p <;> simp [attemptOrder]

lemma tryStyles_error_head (send : Style → Except String Resp) (s : Style)
    (rest : List Style) (e : String) (h : send s = .error e) :
    tryStyles send (s :: rest) = .error e := by
  simp [tryStyles, h]

lemma tryStyles_allFail (send : Style → Resp) :
    ∀ l : List Style, l ≠ [] → (∀ s ∈ l, (send s).status ≠ 200) →
      ∃ s ∈ l, tryStyles (fun t => .ok (send t)) l = .ok (send s) ∧ (send s).status ≠ 200 := by
  intro l
  induction l with
  | nil => intro h; exact absurd rfl h
  | cons s rest ih =>
    intro _ hall
    by_cases hr : rest = []
    · subst hr
      exact ⟨s, by simp, by simp [tryStyles], hall s (by simp)⟩
    · have hs : (send s).status ≠ 200 := hall s (by simp)
      obtain ⟨t, ht, htry, ht200⟩ := ih hr (fun t ht => hall t (by simp [ht]))
      exact ⟨t, by simp [ht], by simp [tryStyles, hr, hs, htry], ht200⟩

lemma tryStyles_firstOk (send : Style → Resp) :
    ∀ (pre : List Style) (s : Style) (post : List Style),
      (∀ t ∈ pre, (send t).status ≠ 200) → (send s).status = 200 →
      tryStyles (fun t => .ok (send t)) (pre ++ s :: post) = .ok (send s) := by
  intro pre
  induction pre with
  | nil =>
    intro s post _ h200
    cases post with
    | nil => simp [tryStyles]
    | cons q qs => simp [tryStyles, h200]
  | cons x xs ih =>
    intro s post hpre h200
    have hx : (send x).status ≠ 200 := hpre x (by simp)
    have hne : xs ++ s :: post ≠ [] := by simp
    have hstep : tryStyles (fun t => .ok (send t)) (x :: (xs ++ s :: post)) =
        tryStyles (fun t => .ok (send t)) (xs ++ s :: post) := by
      simp [tryStyles, hne, hx]
    rw [List.cons_append, hstep]
    exact ih s post (fun t ht => hpre t (by simp [ht])) h200

lemma bearer_negotiates (cfg : OAuthConfig) (now : Int) (styleEnv : String)
    (send : Style → Except String Resp) (cache : TokenCache)
    (hmode : cfg.authType ≠ "key")
    (hcache : ¬(truthy cache.token ∧ cache.exp - 60 > now))
    (h1 : cfg.tokenUrl ≠ "") (h2 : cfg.clientId ≠ "") (h3 : cfg.clientSec ≠ "") :
    bearer cfg now styleEnv send cache =
      match tryStyles send (attemptOrder (parseStyle styleEnv)) with
      | .error e => .error (.requestError e)
      | .ok r =>
        if r.status ≠ 200 then .error (.httpError 502 ("Auth failed: " ++ r.text))
        else .ok (r.body.access_token,
          { token := r.body.access_token, exp := now + r.body.expires_in.getD 3600 }) := by
  simp only [bearer, if_neg hmode, if_neg hcache, if_neg (show ¬(cfg.tokenUrl = "" ∨
    cfg.clientId = "" ∨ cfg.clientSec = "") by simp [h1, h2, h3])]

/-! Concrete fixtures for witnesses and counterexamples. -/

/-- A fully populated OAuth configuration. -/
def cfgAll : OAuthConfig :=
  { authType := "oauth", tokenUrl := "https://auth.example/token", clientId := "cid", clientSec := "sec" }

/-- The initial token cache of app.py line 65. -/
def emptyTC : TokenCache := { token := none, exp := 0 }

/-- A successful token response. -/
def ok200 : Resp :=
  { status := 200, body := { access_token := some "tok", expires_in := some 100 }, text := "ok" }

/-- A rejection response. -/
def r401 : Resp := { status := 401, body := { access_token := none, expires_in := none }, text := "no" }

/-- A token endpoint that accepts only the body style. -/
def sendResp : Style → Resp := fun s => match s with
  | .body => ok200
  | _ => r401

/-- The same endpoint as a network oracle without network errors. -/
def sendBodyOnly : Style → Except String Resp := fun s => .ok (sendResp s)

/-- A 200 response whose JSON body has no access_token field. -/
def respNoTok : Resp :=
  { status := 200, body := { access_token := none, expires_in := none }, text := "missing token" }

/-- C1, corrected, counterexample: the claim says that with preferred style
basic and a token endpoint accepting only the body style the negotiation
succeeds; on the code it fails with HTTPException 502, because the basic
branch of _bearer falls back only to json and never tries body. -/
theorem c1_counterexample :
    sendBodyOnly .body = .ok ok200 ∧ ok200.status = 200 ∧
    bearer cfgAll 0 "basic" sendBodyOnly emptyTC = .error (.httpError 502 "Auth failed: no") :=
  ⟨rfl, rfl, rfl⟩

/-- C1, amended: the negotiator attempts the preferred style first and stops
at the first 200 response, but the fallback chains are asymmetric: preferred
json falls through body then basic (both remaining styles), while preferred
body and preferred basic each fall back only to json. Negotiation succeeds
exactly on the first 200 in that per-style order and otherwise fails with
HTTPException 502. -/
theorem c1_fallback_order (cfg : OAuthConfig) (now : Int) (styleEnv : String)
    (send : Style → Resp) (cache : TokenCache)
    (hmode : cfg.authType ≠ "key")
    (hcache : ¬(truthy cache.token ∧ cache.exp - 60 > now))
    (h1 : cfg.tokenUrl ≠ "") (h2 : cfg.clientId ≠ "") (h3 : cfg.clientSec ≠ "") :
    (attemptOrder .json = [.json, .body, .basic] ∧
     attemptOrder .body = [.body, .json] ∧
     attemptOrder .basic = [.basic, .json]) ∧
    (∀ pre s post, attemptOrder (parseStyle styleEnv) = pre ++ s :: post →
      (∀ t ∈ pre, (send t).status ≠ 200) → (send s).status = 200 →
      bearer cfg now styleEnv (fun t => .ok (send t)) cache =
        .ok ((send s).body.access_token,
          { token := (send s).body.access_token,
            exp := now + ((send s).body.expires_in.getD 3600) })) ∧
    ((∀ t ∈ attemptOrder (parseStyle styleEnv), (send t).status ≠ 200) →
      ∃ d, bearer cfg now styleEnv (fun t => .ok (send t)) cache =
        .error (.httpError 502 d)) := by
  refine ⟨⟨rfl, rfl, rfl⟩, ?_, ?_⟩
  · intro pre s post horder hpre h200
    rw [bearer_negotiates cfg now styleEnv _ cache hmode hcache h1 h2 h3, horder,
      tryStyles_firstOk send pre s post hpre h200]
    simp [h200]
  · intro hall
    obtain ⟨s, _, htry, hs200⟩ :=
      tryStyles_allFail send (attemptOrder (parseStyle styleEnv))
        (attemptOrder_ne_nil _) hall
    refine ⟨"Auth failed: " ++ (send s).text, ?_⟩
    rw [bearer_negotiates cfg now styleEnv _ cache hmode hcache h1 h2 h3, htry]
    simp [hs200]

/-- C1 witness: with preferred style json and the body-only endpoint the
fallback chain reaches body and succeeds. -/
theorem c1_witness :
    bearer cfgAll 0 "json" sendBodyOnly emptyTC =
      .ok (some "tok", { token := some "tok", exp := 0 + 100 }) :=
  (c1_fallback_order cfgAll 0 "json" sendResp emptyTC (by decide) (by decide)
      (by decide) (by decide) (by decide)).2.1
    [.json] .body [.basic] (by decide) (by decide) (by decide)

/-- C2, confirmed: in bearer mode, while a (truthy) cached token satisfies
now < expiresAt - 60 it is returned unchanged and independently of the
network oracle (no network call); once now is at or past expiresAt - 60, a
single negotiation runs and its 200 response is stored as
the pair of the token value and expiry now + expires_in (3600 when the field
is absent), and the fresh token is returned. -/
theorem c2_token_cache (cfg : OAuthConfig) (now : Int) (styleEnv : String)
    (cache : TokenCache) (hmode : cfg.authType ≠ "key") :
    (truthy cache.token = true → now < cache.exp - 60 →
      ∀ send, bearer cfg now styleEnv send cache = .ok (cache.token, cache)) ∧
    (cache.exp - 60 ≤ now →
      cfg.tokenUrl ≠ "" → cfg.clientId ≠ "" → cfg.clientSec ≠ "" →
      ∀ send r, tryStyles send (attemptOrder (parseStyle styleEnv)) = .ok r →
        r.status = 200 →
        bearer cfg now styleEnv send cache =
          .ok (r.body.access_token,
            { token := r.body.access_token, exp := now + r.body.expires_in.getD 3600 })) := by
  constructor
  · intro htr hfresh send
    simp only [bearer, if_neg hmode]
    rw [if_pos ⟨htr, by omega⟩]
  · intro hstale h1 h2 h3 send r htry h200
    have hcache : ¬(truthy cache.token ∧ cache.exp - 60 > now) := by
      rintro ⟨-, hgt⟩; omega
    rw [bearer_negotiates cfg now styleEnv send cache hmode hcache h1 h2 h3, htry]
    simp [h200]

/-- C2 witness: at now = 0 a token expiring at 3600 is served from the cache;
at now = 3540 (exactly expiresAt - 60) the same cache renegotiates and stores
the fresh token with expiry 3540 + 100. -/
theorem c2_witness :
    bearer cfgAll 0 "body" sendBodyOnly { token := some "t", exp := 3600 } =
      .ok (some "t", { token := some "t", exp := 3600 }) ∧
    bearer cfgAll 3540 "body" sendBodyOnly { token := some "t", exp := 3600 } =
      .ok (some "tok", { token := some "tok", exp := 3540 + 100 }) :=
  ⟨(c2_token_cache cfgAll 0 "body" { token := some "t", exp := 3600 } (by decide)).1
      (by decide) (by decide) sendBodyOnly,
   (c2_token_cache cfgAll 3540 "body" { token := some "t", exp := 3600 } (by decide)).2
      (by decide) (by decide) (by decide) (by decide) sendBodyOnly ok200 (by rfl) (by decide)⟩

/-- C3, corrected, counterexample: a 200 token response whose body has no
access_token field is accepted silently: _bearer stores None in the cache and
returns it as the bearer token instead of surfacing a malformed-response
error. -/
theorem c3_counterexample :
    respNoTok.status = 200 ∧ respNoTok.body.access_token = none ∧
    bearer cfgAll 0 "basic" (fun _ => .ok respNoTok) emptyTC =
      .ok (none, { token := none, exp := 3600 }) :=
  ⟨rfl, rfl, rfl⟩

/-- C3, amended: for every 200 token response lacking access_token the
negotiator does not fail; it stores None as the cached token value (with the
usual expiry) and returns None, silently. -/
theorem c3_missing_token_accepted (cfg : OAuthConfig) (now : Int) (styleEnv : String)
    (send : Style → Except String Resp) (cache : TokenCache) (r : Resp)
    (hmode : cfg.authType ≠ "key")
    (hcache : ¬(truthy cache.token ∧ cache.exp - 60 > now))
    (h1 : cfg.tokenUrl ≠ "") (h2 : cfg.clientId ≠ "") (h3 : cfg.clientSec ≠ "")
    (htry : tryStyles send (attemptOrder (parseStyle styleEnv)) = .ok r)
    (h200 : r.status = 200) (hmiss : r.body.access_token = none) :
    bearer cfg now styleEnv send cache =
      .ok (none, { token := none, exp := now + r.body.expires_in.getD 3600 }) := by
  rw [bearer_negotiates cfg now styleEnv send cache hmode hcache h1 h2 h3, htry]
  simp [h200, hmiss]

/-- C3 witness: the amended statement at the concrete 200-without-token
response. -/
theorem c3_witness :
    bearer cfgAll 5 "json" (fun _ => .ok respNoTok) emptyTC =
      .ok (none, { token := none, exp := 5 + 3600 }) :=
  c3_missing_token_accepted cfgAll 5 "json" (fun _ => .ok respNoTok) emptyTC respNoTok
    (by decide) (by decide) (by decide) (by decide) (by decide) (by rfl) (by decide) (by decide)

/-- C4, corrected, counterexample: with all three OAuth fields present, a
network error during the token exchange in app.py does not become
HTTPException 502; it escapes _bearer as an uncaught requests exception
(there is no try/except around the posts), contradicting the claim that such
failures always surface as UpstreamAuthError. -/
theorem c4_counterexample :
    cfgAll.tokenUrl ≠ "" ∧ cfgAll.clientId ≠ "" ∧ cfgAll.clientSec ≠ "" ∧
    bearer cfgAll 0 "basic" (fun _ => .error "connection refused") emptyTC =
      .error (.requestError "connection refused") ∧
    (∀ st d, PyError.requestError "connection refused" ≠ .httpError st d) :=
  ⟨by decide, by decide, by decide, rfl, fun st d h => PyError.noConfusion h⟩

/-- C4, amended: missing tokenUrl, clientId or clientSecret fails with
HTTPException 500 (AuthConfigError) in both source variants; every style
rejected fails with HTTPException 502 (UpstreamAuthError) in app.py; a
network error is turned into HTTPException 502 only in
funfull_roller_middleware_fast_api.py, while in app.py it propagates as an
uncaught requests exception. -/
theorem c4_error_taxonomy :
    (∀ cfg now styleEnv send cache, cfg.authType ≠ "key" →
      ¬(truthy cache.token ∧ cache.exp - 60 > now) →
      (cfg.tokenUrl = "" ∨ cfg.clientId = "" ∨ cfg.clientSec = "") →
      bearer cfg now styleEnv send cache =
        .error (.httpError 500 "OAuth configured but TOKEN_URL/CLIENT_ID/CLIENT_SECRET missing")) ∧
    (∀ cfg now send_body cache, cfg.authType ≠ "key" →
      ¬(truthy cache.token ∧ cache.exp - 60 > now) →
      (cfg.tokenUrl = "" ∨ cfg.clientId = "" ∨ cfg.clientSec = "") →
      bearer_fastapi cfg now send_body cache =
        .error (.httpError 500 "OAuth configured but TOKEN_URL/CLIENT_ID/CLIENT_SECRET missing")) ∧
    (∀ cfg now styleEnv (send : Style → Resp) cache, cfg.authType ≠ "key" →
      ¬(truthy cache.token ∧ cache.exp - 60 > now) →
      cfg.tokenUrl ≠ "" → cfg.clientId ≠ "" → cfg.clientSec ≠ "" →
      (∀ t ∈ attemptOrder (parseStyle styleEnv), (send t).status ≠ 200) →
      ∃ d, bearer cfg now styleEnv (fun t => .ok (send t)) cache =
        .error (.httpError 502 d)) ∧
    (∀ cfg now cache e, cfg.authType ≠ "key" →
      ¬(truthy cache.token ∧ cache.exp - 60 > now) →
      cfg.tokenUrl ≠ "" → cfg.clientId ≠ "" → cfg.clientSec ≠ "" →
      bearer_fastapi cfg now (.error e) cache =
        .error (.httpError 502 ("Auth network error: " ++ e))) ∧
    (∀ cfg now styleEnv (send : Style → Except String Resp) cache e,
      cfg.authType ≠ "key" →
      ¬(truthy cache.token ∧ cache.exp - 60 > now) →
      cfg.tokenUrl ≠ "" → cfg.clientId ≠ "" → cfg.clientSec ≠ "" →
      (∀ t, send t = .error e) →
      bearer cfg now styleEnv send cache = .error (.requestError e)) := by
  refine ⟨?_, ?_, ?_, ?_, ?_⟩
  · intro cfg now styleEnv send cache hmode hcache hmissing
    simp only [bearer, if_neg hmode, if_neg hcache, if_pos hmissing]
  · intro cfg now send_body cache hmode hcache hmissing
    simp only [bearer_fastapi, if_neg hmode, if_neg hcache, if_pos hmissing]
  · intro cfg now styleEnv send cache hmode hcache h1 h2 h3 hall
    exact (c1_fallback_order cfg now styleEnv send cache hmode hcache h1 h2 h3).2.2 hall
  · intro cfg now cache e hmode hcache h1 h2 h3
    simp only [bearer_fastapi, if_neg hmode, if_neg hcache, if_neg (show ¬(cfg.tokenUrl = "" ∨
      cfg.clientId = "" ∨ cfg.clientSec = "") by simp [h1, h2, h3])]
  · intro cfg now styleEnv send cache e hmode hcache h1 h2 h3 herr
    rw [bearer_negotiates cfg now styleEnv send cache hmode hcache h1 h2 h3]
    obtain ⟨s, rest, hord⟩ : ∃ s rest, attemptOrder (parseStyle styleEnv) = s :: rest := by
      cases h : attemptOrder (parseStyle styleEnv) with
      | nil => exact absurd h (attemptOrder_ne_nil _)
      | cons s rest => exact ⟨s, rest, rfl⟩
    rw [hord, tryStyles_error_head send s rest e (herr s)]

/-- C6, corrected, counterexample: when the upstream catalog normalizes to an
empty item list, the stored cache stays empty, so two getCatalog calls one
second apart (well inside the 600 second TTL) both fetch from upstream;
the claimed consequence of exactly one fetch per TTL window fails. -/
theorem c6_counterexample :
    (getCatalog 600 0 [] { fetchedAt := 0, items := [] }).2.2 = true ∧
    (getCatalog 600 1 [] (getCatalog 600 0 [] { fetchedAt := 0, items := [] }).2.1).2.2 = true ∧
    (1 : Int) - 0 < 600 := by
  decide

/-- C6, amended: getCatalog fetches from upstream exactly when the cache is
empty or now - fetchedAt has reached the TTL (an empty cache forces a
refresh regardless of age); consequently, provided the fetched item list is
nonempty, two calls within the TTL window starting from an empty cache issue
exactly one upstream fetch and return the same items. -/
theorem c6_catalog_cache (ttl t₁ t₂ : Int) (fetched : List CatalogItem)
    (c : CatalogCache) (hfe : fetched ≠ []) (hc : c.items = []) (hwin : t₂ - t₁ < ttl) :
    (∀ (now : Int) (f : List CatalogItem) (c₀ : CatalogCache),
      (getCatalog ttl now f c₀).2.2 = true ↔ (c₀.items = [] ∨ ttl ≤ now - c₀.fetchedAt)) ∧
    (getCatalog ttl t₁ fetched c).2.2 = true ∧
    (getCatalog ttl t₂ fetched (getCatalog ttl t₁ fetched c).2.1).2.2 = false ∧
    (getCatalog ttl t₂ fetched (getCatalog ttl t₁ fetched c).2.1).1 =
      (getCatalog ttl t₁ fetched c).1 := by
  refine ⟨?_, ?_⟩
  · intro now f c₀
    by_cases h : c₀.items ≠ [] ∧ now - c₀.fetchedAt < ttl
    · simp only [getCatalog, if_pos h]
      constructor
      · intro hff; exact absurd hff (by decide)
      · rintro (he | hl)
        · exact absurd he h.1
        · omega
    · simp only [getCatalog, if_neg h]
      constructor
      · intro _
        rcases Decidable.em (c₀.items = []) with he | he
        · exact Or.inl he
        · refine Or.inr ?_
          rcases Decidable.em (now - c₀.fetchedAt < ttl) with hl | hl
          · exact absurd ⟨he, hl⟩ h
          · omega
      · intro _; trivial
  · have h₁ : getCatalog ttl t₁ fetched c = (fetched, { fetchedAt := t₁, items := fetched }, true) := by
      simp only [getCatalog, if_neg (show ¬(c.items ≠ [] ∧ t₁ - c.fetchedAt < ttl) by
        rintro ⟨hne, -⟩; exact hne hc)]
    rw [h₁]
    have h₂ : getCatalog ttl t₂ fetched { fetchedAt := t₁, items := fetched } =
        (fetched, { fetchedAt := t₁, items := fetched }, false) := by
      simp only [getCatalog, if_pos (show ({ fetchedAt := t₁, items := fetched } :
        CatalogCache).items ≠ [] ∧ t₂ - ({ fetchedAt := t₁, items := fetched } :
        CatalogCache).fetchedAt < ttl from ⟨hfe, by simpa using hwin⟩)]
    rw [h₂]
    exact ⟨rfl, rfl, rfl⟩

/-- C6 witness: the amended statement with TTL 600, calls at times 0 and 1
and a one-item upstream catalog. -/
theorem c6_witness :
    (getCatalog 600 1 [default]
      (getCatalog 600 0 [default] { fetchedAt := 0, items := [] }).2.1).2.2 = false :=
  (c6_catalog_cache 600 0 1 [default] { fetchedAt := 0, items := [] }
    (by decide) (by decide) (by decide)).2.2.1

/-! Helper lemmas for catalog normalization. -/

lemma firstTruthyStr_some : ∀ (l : List (Option String)) (s : String),
    firstTruthyStr l = some s → s ≠ "" := by
  intro l
  induction l with
  | nil => intro s h; simp [firstTruthyStr] at h
  | cons x rest ih =>
    intro s h
    cases x with
    | none => exact ih s h
    | some v =>
      by_cases hv : v = ""
      · rw [show firstTruthyStr (some v :: rest) = firstTruthyStr rest by
          simp [firstTruthyStr, hv]] at h
        exact ih s h
      · rw [show firstTruthyStr (some v :: rest) = some v by simp [firstTruthyStr, hv]] at h
        cases h; exact hv

lemma firstTruthyInt_pos (dflt : Int) (hd : 0 < dflt) :
    ∀ l : List (Option Int), (∀ x ∈ l, 0 ≤ x.getD 0) → 0 < firstTruthyInt dflt l := by
  intro l
  induction l with
  | nil => intro _; exact hd
  | cons x rest ih =>
    intro hall
    cases x with
    | none => exact ih (fun y hy => hall y (by simp [hy]))
    | some n =>
      by_cases hn : n = 0
      · rw [show firstTruthyInt dflt (some n :: rest) = firstTruthyInt dflt rest by
          simp [firstTruthyInt, hn]]
        exact ih (fun y hy => hall y (by simp [hy]))
      · rw [show firstTruthyInt dflt (some n :: rest) = n by simp [firstTruthyInt, hn]]
        have := hall (some n) (by simp)
        simp only [Option.getD_some] at this
        omega

lemma normalizeRaw_eq_some (filterEnv : String) (p : RawProduct) (it : CatalogItem)
    (h : normalizeRaw filterEnv p = some it) :
    ∃ i n, firstTruthyStr [p.parentProductId, p.id, p.productId, p.code] = some i ∧
      firstTruthyStr [p.parentProductName, p.name, p.title] = some n ∧
      it = { productId := i, name := n,
             durationMinutes := firstTruthyInt 120 [p.duration, p.durationMinutes],
             resourceTypes := rawResourceTypes p } := by
  cases hpid : firstTruthyStr [p.parentProductId, p.id, p.productId, p.code] with
  | none => simp [normalizeRaw, hpid] at h
  | some i =>
    cases hnm : firstTruthyStr [p.parentProductName, p.name, p.title] with
    | none => simp [normalizeRaw, hpid, hnm] at h
    | some n =>
      simp only [normalizeRaw, hpid, hnm] at h
      split at h
      · exact absurd h (by simp)
      · exact ⟨i, n, rfl, rfl, (Option.some_inj.mp h).symm⟩

/-- A raw record with a resolvable id and name but a negative duration
field. -/
def rawNeg : RawProduct := { emptyRaw with id := some "x", name := some "y", duration := some (-5) }

/-- A raw record with a resolvable id and name and no duration fields. -/
def rawPos : RawProduct := { emptyRaw with id := some "x", name := some "y" }

/-- C8, corrected, counterexample: a raw record carrying duration -5 resolves
an id and a name, so it is kept, and the produced CatalogItem has
durationMinutes = -5, which is not a positive integer; the claimed invariant
fails. -/
theorem c8_counterexample :
    normalizeCatalog "" [rawNeg] =
      [{ productId := "x", name := "y", durationMinutes := -5, resourceTypes := [] }] ∧
    ¬(0 < (-5 : Int)) := by
  refine ⟨by decide, by decide⟩

/-- C8, amended: every produced CatalogItem has a non-empty productId and a
non-empty name, and a record resolving no id or no name is dropped (mapped to
none, no error) rather than raising; durationMinutes is the first truthy
duration field with default 120 and is passed through unvalidated, so it is
positive only under the extra assumption that the duration fields present in
the input are nonnegative. -/
theorem c8_normalization (filterEnv : String) (rs : List RawProduct) :
    (∀ it ∈ normalizeCatalog filterEnv rs, it.productId ≠ "" ∧ it.name ≠ "") ∧
    ((∀ p ∈ rs, 0 ≤ p.duration.getD 0 ∧ 0 ≤ p.durationMinutes.getD 0) →
      ∀ it ∈ normalizeCatalog filterEnv rs, 0 < it.durationMinutes) ∧
    (∀ p : RawProduct,
      (firstTruthyStr [p.parentProductId, p.id, p.productId, p.code] = none ∨
       firstTruthyStr [p.parentProductName, p.name, p.title] = none) →
      normalizeRaw filterEnv p = none) := by
  refine ⟨?_, ?_, ?_⟩
  · intro it hit
    obtain ⟨p, _, hsome⟩ := List.mem_filterMap.mp hit
    obtain ⟨i, n, hpid, hnm, hform⟩ := normalizeRaw_eq_some filterEnv p it hsome
    subst hform
    exact ⟨firstTruthyStr_some _ i hpid, firstTruthyStr_some _ n hnm⟩
  · intro hdur it hit
    obtain ⟨p, hp, hsome⟩ := List.mem_filterMap.mp hit
    obtain ⟨i, n, _, _, hform⟩ := normalizeRaw_eq_some filterEnv p it hsome
    subst hform
    refine firstTruthyInt_pos 120 (by decide) _ ?_
    intro x hx
    have hd := hdur p hp
    simp only [List.mem_cons, List.not_mem_nil, or_false] at hx
    rcases hx with hx | hx
    · simpa [hx] using hd.1
    · simpa [hx] using hd.2
  · intro p hp
    rcases hp with hid | hnm
    · simp [normalizeRaw, hid]
    · cases hpid : firstTruthyStr [p.parentProductId, p.id, p.productId, p.code] with
      | none => simp [normalizeRaw, hpid]
      | some i => simp [normalizeRaw, hpid, hnm]

/-- C8 witness: the amended statement at a concrete one-record catalog whose
record has no duration fields; the produced item keeps the default 120. -/
theorem c8_witness :
    0 < ({ productId := "x", name := "y", durationMinutes := 120,
           resourceTypes := [] } : CatalogItem).durationMinutes :=
  (c8_normalization "" [rawPos]).2.1 (by decide) _ (by decide)

/-- C9, corrected, counterexample: abcd-ef-gh is not strictly YYYY-MM-DD, yet
the guard accepts it (only the length and the two dash positions are
checked), the handler does not answer 422 and the upstream fetch happens. -/
theorem c9_counterexample :
    strictYYYYMMDD "abcd-ef-gh" = false ∧
    dateParamOk (some "abcd-ef-gh") = true ∧
    (productAvailability [] [] (some "abcd-ef-gh") none none none none 0).1 ≠
      .validationError 422 "Date must be yyyy-MM-dd" ∧
    (productAvailability [] [] (some "abcd-ef-gh") none none none none 0).2.2 = true := by
  refine ⟨by decide, by decide, by decide, by decide⟩

/-- C9, amended: the date guard accepts exactly the strings of length 10 with
a dash at positions 4 and 7 (a proper superset of strict YYYY-MM-DD, so every
strictly formatted date is accepted, but digits are not checked); every
rejected date is answered with 422 and no upstream fetch; 2024-1-5 is
rejected and 2024-01-05 accepted. -/
theorem c9_date_validation (d : String) (upstream : List AvailProduct)
    (memo : List (AvailKey × List AvailProduct)) (pc pids pt : Option String) (bucket : Int) :
    (strictYYYYMMDD d = true → dateParamOk (some d) = true) ∧
    (dateParamOk (some d) = true ↔
      (d ≠ "" ∧ d.length = 10 ∧ d.data.getD 4 ' ' = '-' ∧ d.data.getD 7 ' ' = '-')) ∧
    (dateParamOk (some d) = false →
      productAvailability upstream memo (some d) none pc pids pt bucket =
        (.validationError 422 "Date must be yyyy-MM-dd", memo, false)) ∧
    dateParamOk (some "2024-1-5") = false ∧
    dateParamOk (some "2024-01-05") = true := by
  refine ⟨?_, ?_, ?_, by decide, by decide⟩
  · intro hstrict
    simp only [strictYYYYMMDD, Bool.and_eq_true, decide_eq_true_eq] at hstrict
    have hne : d ≠ "" := by
      intro he
      rw [he] at hstrict
      simp at hstrict
    simp only [dateParamOk, Bool.and_eq_true, decide_eq_true_eq]
    exact ⟨⟨⟨hne, hstrict.1.1.1.1.1⟩, hstrict.1.1.1.2⟩, hstrict.1.2⟩
  · simp only [dateParamOk, Bool.and_eq_true, decide_eq_true_eq]
    constructor
    · rintro ⟨⟨⟨h0, h1⟩, h2⟩, h3⟩; exact ⟨h0, h1, h2, h3⟩
    · rintro ⟨h0, h1, h2, h3⟩; exact ⟨⟨⟨h0, h1⟩, h2⟩, h3⟩
  · intro hbad
    by_cases hd : d = ""
    · simp [productAvailability, pyOr, hd, dateParamOk]
    · simp only [productAvailability, pyOr, if_neg hd]
      rw [if_pos (by simp [hbad])]

/-! Helper lemma: pyMax is a first-argmax scan. -/

lemma pyMax_first_argmax (l : List (ℚ × CatalogItem)) :
    ∀ c : ℚ × CatalogItem, ∃ l₁ l₂, c :: l = l₁ ++ pyMax l c :: l₂ ∧
      (∀ x ∈ l₁, x.1 < (pyMax l c).1) ∧ (∀ x ∈ l₂, x.1 ≤ (pyMax l c).1) := by
  induction l with
  | nil =>
    intro c
    exact ⟨[], [], by simp [pyMax], by simp, by simp⟩
  | cons x xs ih =>
    intro c
    have hunf : pyMax (x :: xs) c = pyMax xs (if x.1 > c.1 then x else c) := rfl
    by_cases hx : x.1 > c.1
    · rw [hunf, if_pos hx]
      obtain ⟨l₁, l₂, hdec, hlt, hle⟩ := ih x
      cases l₁ with
      | nil =>
        simp only [List.nil_append] at hdec
        injection hdec with h1 h2
        refine ⟨[c], xs, ?_, ?_, ?_⟩
        · rw [← h1]; simp
        · intro y hy
          simp only [List.mem_singleton] at hy
          subst hy
          rw [← h1]; exact hx
        · intro y hy
          exact hle y (h2 ▸ hy)
      | cons hh t =>
        simp only [List.cons_append] at hdec
        injection hdec with h1 h2
        have hxm : x.1 < (pyMax xs x).1 := by
          have := hlt hh (by simp)
          rw [← h1] at this
          exact this
        refine ⟨c :: x :: t, l₂, ?_, ?_, hle⟩
        · simp only [List.cons_append]
          rw [← h2]
        · intro y hy
          simp only [List.mem_cons] at hy
          rcases hy with rfl | rfl | hy
          · exact lt_trans hx hxm
          · exact hxm
          · exact hlt y (by simp [hy])
    · rw [hunf, if_neg hx]
      have hxle : x.1 ≤ c.1 := le_of_not_lt hx
      obtain ⟨l₁, l₂, hdec, hlt, hle⟩ := ih c
      cases l₁ with
      | nil =>
        simp only [List.nil_append] at hdec
        injection hdec with h1 h2
        refine ⟨[], x :: xs, ?_, by simp, ?_⟩
        · rw [← h1]; simp
        · intro y hy
          simp only [List.mem_cons] at hy
          rcases hy with rfl | hy
          · rw [← h1]; exact hxle
          · exact hle y (h2 ▸ hy)
      | cons hh t =>
        simp only [List.cons_append] at hdec
        injection hdec with h1 h2
        have hcm : c.1 < (pyMax xs c).1 := by
          have := hlt hh (by simp)
          rw [← h1] at this
          exact this
        refine ⟨c :: x :: t, l₂, ?_, ?_, hle⟩
        · simp only [List.cons_append]
          rw [← h2]
        · intro y hy
          simp only [List.mem_cons] at hy
          rcases hy with rfl | rfl | hy
          · exact hcm
          · exact lt_of_le_of_lt hxle hcm
          · exact hlt y (by simp [hy])

/-- C5, confirmed: for a nonempty normalized query over a nonempty catalog
there is a best candidate attaining the maximum similarity score, every
catalog item strictly before it scores strictly lower (so ties go to the
first-encountered item in catalog order) and every item after it scores no
higher; whenever that best score reaches 0.62 the endpoint returns matched
with the fields of that candidate and the score rounded to three decimals. -/
theorem c5_resolver (score : List Char → List Char → ℚ) (q : String)
    (items : List CatalogItem) (hq : norm q ≠ []) (hi : items ≠ []) :
    ∃ (s : ℚ) (best : CatalogItem) (l₁ l₂ : List CatalogItem),
      items = l₁ ++ best :: l₂ ∧
      s = score (norm q) (norm best.name) ∧
      (∀ it ∈ l₁, score (norm q) (norm it.name) < s) ∧
      (∀ it ∈ l₂, score (norm q) (norm it.name) ≤ s) ∧
      (62/100 ≤ s →
        resolvePackage score q items =
          .matched (round3 s) best.productId best.name best.resourceTypes
            best.durationMinutes) := by
  obtain ⟨it₀, its, rfl⟩ : ∃ it₀ its, items = it₀ :: its := by
    cases items with
    | nil => exact absurd rfl hi
    | cons a l => exact ⟨a, l, rfl⟩
  obtain ⟨L₁, L₂, hdec, hlt, hle⟩ :=
    pyMax_first_argmax (its.map (fun it => (score (norm q) (norm it.name), it)))
      (score (norm q) (norm it₀.name), it₀)
  have hmap : (it₀ :: its).map (fun it => (score (norm q) (norm it.name), it)) =
      L₁ ++ pyMax (its.map (fun it => (score (norm q) (norm it.name), it)))
        (score (norm q) (norm it₀.name), it₀) :: L₂ := by
    simpa using hdec
  rw [List.map_eq_append_iff] at hmap
  obtain ⟨l₁, l₂', hitems, hm₁, hm₂⟩ := hmap
  rw [List.map_eq_cons_iff] at hm₂
  obtain ⟨best, l₂, hl₂', hfbest, hm₂⟩ := hm₂
  refine ⟨(pyMax (its.map (fun it => (score (norm q) (norm it.name), it)))
    (score (norm q) (norm it₀.name), it₀)).1, best, l₁, l₂, ?_, ?_, ?_, ?_, ?_⟩
  · rw [hitems, hl₂']
  · rw [← hfbest]
  · intro it hit
    have : (score (norm q) (norm it.name), it) ∈ L₁ := by
      rw [← hm₁]
      exact List.mem_map_of_mem _ hit
    exact hlt _ this
  · intro it hit
    have : (score (norm q) (norm it.name), it) ∈ L₂ := by
      rw [← hm₂]
      exact List.mem_map_of_mem _ hit
    exact hle _ this
  · intro hth
    have hnotlt : ¬((pyMax (its.map (fun it => (score (norm q) (norm it.name), it)))
        (score (norm q) (norm it₀.name), it₀)).1 < 62/100) := not_lt.mpr hth
    have hbest2 : (pyMax (its.map (fun it => (score (norm q) (norm it.name), it)))
        (score (norm q) (norm it₀.name), it₀)).2 = best := by
      rw [← hfbest]
    simp only [resolvePackage, List.map_cons]
    rw [if_neg (by simp [hq]), if_neg hnotlt]
    rw [hbest2]

/-- A concrete score function for the resolver witness. -/
def scoreW : List Char → List Char → ℚ :=
  fun _ b => if b = norm "Birthday Party Room" then 7/10 else 1/10

/-- A concrete one-item catalog. -/
def itemsW : List CatalogItem :=
  [{ productId := "P1", name := "Birthday Party Room", durationMinutes := 120,
     resourceTypes := ["room"] }]

/-- C5 witness: the resolver statement instantiated at a concrete catalog,
query and score function. -/
theorem c5_witness :
    ∃ (s : ℚ) (best : CatalogItem) (l₁ l₂ : List CatalogItem),
      itemsW = l₁ ++ best :: l₂ ∧
      s = scoreW (norm "birthday party") (norm best.name) ∧
      (∀ it ∈ l₁, scoreW (norm "birthday party") (norm it.name) < s) ∧
      (∀ it ∈ l₂, scoreW (norm "birthday party") (norm it.name) ≤ s) ∧
      (62/100 ≤ s →
        resolvePackage scoreW "birthday party" itemsW =
          .matched (round3 s) best.productId best.name best.resourceTypes
            best.durationMinutes) :=
  c5_resolver scoreW "birthday party" itemsW (by decide) (by decide)

/-! Helper lemmas: the nearest-index scan is a first argmin. -/

/-- The scan of min(range(n), key) with first-wins tie-breaking. -/
def argminScan (key : Nat → Int) (n : Nat) : Nat :=
  (List.range n).foldl (fun best i => if key i < key best then i else best) 0

lemma nearestIdx_eq_argminScan (starts : List Int) (pt : Int) :
    nearestIdx starts pt = argminScan (fun i => |starts.getD i 0 - pt|) starts.length := rfl

lemma argminScan_succ (key : Nat → Int) (n : Nat) :
    argminScan key (n + 1) =
      if key n < key (argminScan key n) then n else argminScan key n := by
  simp [argminScan, List.range_succ, List.foldl_append]

lemma argminScan_spec (key : Nat → Int) :
    ∀ n, 0 < n →
      argminScan key n < n ∧ (∀ j, j < n → key (argminScan key n) ≤ key j) ∧
      (∀ j, j < argminScan key n → key (argminScan key n) < key j) := by
  intro n
  induction n with
  | zero => intro h; exact absurd h (by decide)
  | succ m ih =>
    intro _
    by_cases hm : 0 < m
    · obtain ⟨hlt, hmin, hstrict⟩ := ih hm
      rw [argminScan_succ]
      by_cases hkey : key m < key (argminScan key m)
      · rw [if_pos hkey]
        refine ⟨Nat.lt_succ_self m, ?_, ?_⟩
        · intro j hj
          rcases Nat.lt_succ_iff_lt_or_eq.mp hj with hj | rfl
          · exact le_trans (le_of_lt hkey) (hmin j hj)
          · exact le_refl _
        · intro j hj
          exact lt_of_lt_of_le hkey (hmin j hj)
      · rw [if_neg hkey]
        refine ⟨Nat.lt_succ_of_lt hlt, ?_, hstrict⟩
        intro j hj
        rcases Nat.lt_succ_iff_lt_or_eq.mp hj with hj | rfl
        · exact hmin j hj
        · exact le_of_not_lt hkey
    · have hm0 : m = 0 := Nat.eq_zero_of_not_pos hm
      subst hm0
      have h1 : argminScan key 1 = 0 := by
        rw [argminScan_succ]
        simp [argminScan]
      rw [h1]
      refine ⟨by decide, ?_, ?_⟩
      · intro j hj
        have : j = 0 := Nat.lt_one_iff.mp hj
        subst this
        exact le_refl _
      · intro j hj
        exact absurd hj (Nat.not_lt_zero j)

/-- C7, confirmed: for every nonempty session list the handler works on the
stable ascending sort of the sessions by start time (a permutation of the
input, sorted by the minute key); the selected index is in range, its start
time is at minimal absolute distance from the preferred time, every earlier
index is at strictly larger distance (Python min keeps the first argmin), and
the produced neighbor set is the window of the nearest session with its
immediate predecessor and successor when they exist; at start times
09:00, 10:30, 12:00, 14:00 with preferred time 11:45 the neighbor set is
exactly 10:30, 12:00, 14:00. -/
theorem c7_neighbors (ss : List Session) (pt : Int) (hne : ss ≠ []) :
    let sorted := sortSessions ss
    let starts := sorted.map (fun s => toMinutesD s.startTime)
    let idx := nearestIdx starts pt
    sorted.Perm ss ∧ List.Sorted sessionLe sorted ∧ idx < sorted.length ∧
    (∀ j < starts.length, |starts.getD idx 0 - pt| ≤ |starts.getD j 0 - pt|) ∧
    (∀ j < idx, |starts.getD idx 0 - pt| < |starts.getD j 0 - pt|) ∧
    neighborsFor ss pt = neighborWindow sorted idx ∧
    neighborsFor [⟨"09:00"⟩, ⟨"10:30"⟩, ⟨"12:00"⟩, ⟨"14:00"⟩] (toMinutesD "11:45") =
      [⟨"10:30"⟩, ⟨"12:00"⟩, ⟨"14:00"⟩] := by
  intro sorted starts idx
  have hperm : sorted.Perm ss := List.perm_insertionSort sessionLe ss
  have hlen : 0 < starts.length := by
    have h1 : sorted.length = ss.length := hperm.length_eq
    have h2 : 0 < ss.length := List.length_pos.mpr hne
    simpa [starts, List.length_map, h1] using h2
  obtain ⟨hidx, hmin, hstrict⟩ :=
    argminScan_spec (fun i => |starts.getD i 0 - pt|) starts.length hlen
  refine ⟨hperm, List.sorted_insertionSort sessionLe ss, ?_, ?_, ?_, rfl, by decide⟩
  · have : idx < starts.length := by
      simpa [idx, nearestIdx_eq_argminScan] using hidx
    simpa [starts, List.length_map] using this
  · intro j hj
    have := hmin j hj
    simpa [idx, nearestIdx_eq_argminScan] using this
  · intro j hj
    have hj' : j < argminScan (fun i => |starts.getD i 0 - pt|) starts.length := by
      simpa [idx, nearestIdx_eq_argminScan] using hj
    have := hstrict j hj'
    simpa [idx, nearestIdx_eq_argminScan] using this

/-- C7 witness: the theorem applied at the concrete session list of the
claim. -/
theorem c7_witness :
    neighborsFor [⟨"09:00"⟩, ⟨"10:30"⟩, ⟨"12:00"⟩, ⟨"14:00"⟩] (toMinutesD "11:45") =
      [⟨"10:30"⟩, ⟨"12:00"⟩, ⟨"14:00"⟩] :=
  (c7_neighbors [⟨"09:00"⟩, ⟨"10:30"⟩, ⟨"12:00"⟩, ⟨"14:00"⟩] (toMinutesD "11:45")
    (by decide)).2.2.2.2.2.2

/-- C10, confirmed: with a valid date, a first request carrying a preferred
time processes the very objects stored by the lru_cache memo (sorting the
sessions of each product and attaching the preferred and neighborSessions
keys) and writes them back through aliasing, so a second request in the same
TTL bucket with no preferred time is served from the cache (no upstream
fetch) and observes the processed products — leftover preferred and
neighborSessions fields and resorted session lists — instead of the pristine
upstream response. -/
theorem c10_cached_mutation (upstream : List AvailProduct) (d : String)
    (pc pids : Option String) (pt : String) (bucket : Int)
    (hd : dateParamOk (some d) = true)
    (hpristine : ∀ p ∈ upstream, p.preferred = none)
    (hsome : ∃ p ∈ upstream, p.sessions ≠ []) :
    (productAvailability upstream
        (productAvailability upstream [] (some d) none pc pids (some pt) bucket).2.1
        (some d) none pc pids none bucket).1 = .ok (processPreferred pt upstream) ∧
    (productAvailability upstream
        (productAvailability upstream [] (some d) none pc pids (some pt) bucket).2.1
        (some d) none pc pids none bucket).2.2 = false ∧
    (∃ p ∈ processPreferred pt upstream,
      p.preferred = some pt ∧ p.neighborSessions ≠ none) ∧
    processPreferred pt upstream ≠ upstream ∧
    (∀ p ∈ processPreferred pt upstream, List.Sorted sessionLe p.sessions) := by
  have hne : d ≠ "" := by
    simp only [dateParamOk, Bool.and_eq_true, decide_eq_true_eq] at hd
    exact hd.1.1.1
  have hm1 : productAvailability upstream [] (some d) none pc pids (some pt) bucket =
      (.ok (processPreferred pt upstream),
       [(((d : String), pc, pids, bucket), processPreferred pt upstream)], true) := by
    simp [productAvailability, pyOr, hne, hd, availabilityCached, lookupMemo, memoMutate,
      List.find?]
  have hm2 : productAvailability upstream
      [(((d : String), pc, pids, bucket), processPreferred pt upstream)]
      (some d) none pc pids none bucket =
      (.ok (processPreferred pt upstream),
       [(((d : String), pc, pids, bucket), processPreferred pt upstream)], false) := by
    simp [productAvailability, pyOr, hne, hd, availabilityCached, lookupMemo, List.find?]
  obtain ⟨p, hp, hps⟩ := hsome
  have hproc : (processProduct pt p).preferred = some pt ∧
      (processProduct pt p).neighborSessions ≠ none := by
    simp [processProduct, hps]
  refine ⟨?_, ?_, ?_, ?_, ?_⟩
  · rw [hm1]
    simp only [hm2]
  · rw [hm1]
    simp only [hm2]
  · exact ⟨processProduct pt p, List.mem_map_of_mem _ hp, hproc⟩
  · intro heq
    have hmem : processProduct pt p ∈ processPreferred pt upstream :=
      List.mem_map_of_mem _ hp
    rw [heq] at hmem
    have := hpristine _ hmem
    rw [hproc.1] at this
    exact Option.some_ne_none pt this
  · intro p' hp'
    obtain ⟨p0, _, rfl⟩ := List.mem_map.mp hp'
    by_cases h0 : p0.sessions = []
    · simp [processProduct, h0, List.sorted_nil]
    · simp only [processProduct, if_neg h0]
      exact List.sorted_insertionSort sessionLe p0.sessions

/-- A concrete pristine upstream availability response with one product and
unsorted sessions. -/
def upstreamW : List AvailProduct :=
  [{ sessions := [⟨"12:00"⟩, ⟨"09:00"⟩], preferred := none, neighborSessions := none }]

/-- C10 witness: at the concrete upstream response, after a request with
preferred time 11:45 the cached products differ from the pristine upstream
response. -/
theorem c10_witness : processPreferred "11:45" upstreamW ≠ upstreamW :=
  (c10_cached_mutation upstreamW "2024-01-05" none none "11:45" 0
    (by decide) (by decide) (by decide)).2.2.2.1

/-- An OAuth configuration with an empty token URL. -/
def cfgMissing : OAuthConfig :=
  { authType := "oauth", tokenUrl := "", clientId := "cid", clientSec := "sec" }

/-- C4 witness: the amended taxonomy at concrete inputs — missing token URL
gives 500, every style rejected gives 502, a network error gives 502 in the
fastapi variant and an uncaught requests exception in app.py. -/
theorem c4_witness :
    bearer cfgMissing 0 "basic" sendBodyOnly emptyTC =
      .error (.httpError 500 "OAuth configured but TOKEN_URL/CLIENT_ID/CLIENT_SECRET missing") ∧
    (∃ d, bearer cfgAll 0 "basic" (fun _ => .ok (r401 : Resp)) emptyTC =
      .error (.httpError 502 d)) ∧
    bearer_fastapi cfgAll 0 (.error "boom") emptyTC =
      .error (.httpError 502 "Auth network error: boom") ∧
    bearer cfgAll 0 "json" (fun _ => .error "down") emptyTC = .error (.requestError "down") :=
  ⟨c4_error_taxonomy.1 cfgMissing 0 "basic" sendBodyOnly emptyTC (by decide) (by decide)
      (Or.inl (by decide)),
   c4_error_taxonomy.2.2.1 cfgAll 0 "basic" (fun _ => r401) emptyTC (by decide) (by decide)
      (by decide) (by decide) (by decide) (by decide),
   c4_error_taxonomy.2.2.2.1 cfgAll 0 emptyTC "boom" (by decide) (by decide) (by decide)
      (by decide) (by decide),
   c4_error_taxonomy.2.2.2.2 cfgAll 0 "json" (fun _ => .error "down") emptyTC "down"
      (by decide) (by decide) (by decide) (by decide) (by decide) (fun _ => rfl)⟩

/-- C9 witness: the amended statement at the malformed date of the claim —
2024-1-5 is answered 422 with no upstream fetch. -/
theorem c9_witness :
    productAvailability [] [] (some "2024-1-5") none none none none 0 =
      (.validationError 422 "Date must be yyyy-MM-dd", [], false) :=
  (c9_date_validation "2024-1-5" [] [] none none none 0).2.2.1 (by decide)
